import Mathlib

/-!
Verification of the campaign ad-serving engine of `src/db/managers/campaign.ts`
(ChatGPT Discord bot). The TypeScript code is shallowly embedded: JavaScript
numbers are modelled as exact rationals (`JSRat`, an unnormalized fraction kept
executable), the integer-valued arithmetic of the weighted-allocation walk —
which in JavaScript can produce `NaN` and `±Infinity` through division by zero —
is modelled by `JSInt`, and the store/side-effecting operations are modelled as
pure state transformers on `Campaign` records.
-/

/-- Exact value of a JavaScript number, kept as an unnormalized fraction
`num / den` so that every operation is plain integer arithmetic and reduces in
the kernel. Well-formed values have `den ≠ 0` (see `JSRat.wf`); all values the
program constructs from well-formed inputs stay well-formed. -/
structure JSRat where
  num : Int
  den : Nat
deriving DecidableEq, Repr

/-- Representation invariant: the denominator is not zero. -/
def JSRat.wf (a : JSRat) : Prop := a.den ≠ 0

/-- The rational value represented by a `JSRat`. -/
def JSRat.toRat (a : JSRat) : ℚ := (a.num : ℚ) / (a.den : ℚ)

def JSRat.ofInt (i : Int) : JSRat := ⟨i, 1⟩

def JSRat.add (a b : JSRat) : JSRat :=
  ⟨a.num * (b.den : Int) + b.num * (a.den : Int), a.den * b.den⟩

def JSRat.sub (a b : JSRat) : JSRat :=
  ⟨a.num * (b.den : Int) - b.num * (a.den : Int), a.den * b.den⟩

def JSRat.mul (a b : JSRat) : JSRat := ⟨a.num * b.num, a.den * b.den⟩

/-- Division `a / b` for `b` of nonzero value: the sign of `b.num` is moved to
the numerator so the denominator stays a natural number. Division by a
zero-valued `b` is handled by the caller (JavaScript yields `NaN`/`±Infinity`
there; see `rawPercent`). -/
def JSRat.div (a b : JSRat) : JSRat :=
  ⟨a.num * (b.den : Int) * b.num.sign, a.den * b.num.natAbs⟩

/-- Boolean `a ≤ b` on values, valid for well-formed operands. -/
def JSRat.ble (a b : JSRat) : Bool := a.num * (b.den : Int) ≤ b.num * (a.den : Int)

/-- Whether the represented value is zero (well-formedness assumed). -/
def JSRat.isZero (a : JSRat) : Bool := a.num = 0

/-- `Math.round` on a well-formed `JSRat`: rounds half toward positive
infinity, i.e. `⌊x + 1/2⌋ = ⌊(2 num + den) / (2 den)⌋`, computed with integer
floor division. -/
def JSRat.round (a : JSRat) : Int := Int.fdiv (2 * a.num + (a.den : Int)) (2 * (a.den : Int))

/-- An integer-valued JavaScript number as it appears in the allocation walk of
`pick` (values after `Math.round`, and the cumulative `start`/`end` bounds),
including the non-finite values that division by a zero total budget produces. -/
inductive JSInt where
  | nan
  | posInf
  | negInf
  | int (i : Int)
deriving DecidableEq, Repr

def JSInt.add : JSInt → JSInt → JSInt
  | .nan, _ => .nan
  | _, .nan => .nan
  | .posInf, .negInf => .nan
  | .negInf, .posInf => .nan
  | .posInf, _ => .posInf
  | _, .posInf => .posInf
  | .negInf, _ => .negInf
  | _, .negInf => .negInf
  | .int a, .int b => .int (a + b)

def JSInt.neg : JSInt → JSInt
  | .nan => .nan
  | .posInf => .negInf
  | .negInf => .posInf
  | .int a => .int (-a)

def JSInt.sub (a b : JSInt) : JSInt := a.add b.neg

/-- JavaScript `<`: any comparison with `NaN` is false. -/
def JSInt.lt : JSInt → JSInt → Bool
  | .nan, _ => false
  | _, .nan => false
  | .negInf, .negInf => false
  | .negInf, _ => true
  | _, .negInf => false
  | .posInf, _ => false
  | .int _, .posInf => true
  | .int a, .int b => a < b

/-- JavaScript `<=`: any comparison with `NaN` is false. -/
def JSInt.le : JSInt → JSInt → Bool
  | .nan, _ => false
  | _, .nan => false
  | .negInf, _ => true
  | _, .negInf => false
  | _, .posInf => true
  | .posInf, .int _ => false
  | .int a, .int b => a ≤ b

/-! ## Data model (`DatabaseCampaign` and friends) -/

/-- `DatabaseCampaignBudgetType`: `"click" | "view" | "none"`. -/
inductive BudgetType where
  | click
  | view
  | none
deriving DecidableEq, Repr

/-- `DatabaseCampaignBudget`. -/
structure CampaignBudget where
  total : JSRat
  used : JSRat
  type : BudgetType
  cost : JSRat
deriving DecidableEq, Repr

/-- `DatabaseCampaignLogAction`. -/
inductive LogAction where
  | updateValue
  | addBudget
  | toggle
  | clearStatistics
deriving DecidableEq, Repr

/-- `DatabaseCampaignLog`; the `data` payload is opaque to the manager and
modelled as an optional string. -/
structure CampaignLog where
  action : LogAction
  when : Int
  who : String
  data : Option String
deriving DecidableEq, Repr

/-- A per-country counter map (`Record<string, number>`), modelled as an
association list read through `geoGet`; JavaScript object spread-merge is
`geoMerge`. -/
abbrev GeoMap := List (String × Nat)

/-- Property read `geo[k]`. -/
def geoGet (g : GeoMap) (k : String) : Option Nat := g.lookup k

/-- JavaScript object spread `{ ...a, ...b }` observed through property reads:
keys of `b` override keys of `a`. -/
def geoMerge (a b : GeoMap) : GeoMap := b ++ a

/-- One side (`clicks` or `views`) of `DatabaseCampaignStatistics`. -/
structure StatCounter where
  total : Nat
  geo : GeoMap
deriving DecidableEq, Repr

/-- `DatabaseCampaignStatistics`. -/
structure CampaignStatistics where
  clicks : StatCounter
  views : StatCounter
deriving DecidableEq, Repr

/-- `keyof DatabaseCampaignStatistics`. -/
inductive StatType where
  | clicks
  | views
deriving DecidableEq, Repr

def CampaignStatistics.get (s : CampaignStatistics) : StatType → StatCounter
  | .clicks => s.clicks
  | .views => s.views

def CampaignStatistics.set (s : CampaignStatistics) : StatType → StatCounter → CampaignStatistics
  | .clicks, c => { s with clicks := c }
  | .views, c => { s with views := c }

/-- `DatabaseCampaignFilterCall`; the registered filters all receive a list of
strings as their `data` payload. -/
structure FilterCall where
  name : String
  data : List String
deriving DecidableEq, Repr

/-- A button of `DatabaseCampaignSettings.buttons` (`ChatButton`, declared
outside this repository slice); modelled with the fields this file reads. -/
structure ChatButton where
  id : String
  label : String
  url : Option String
  emoji : Option String
  disabled : Option Bool
deriving DecidableEq, Repr

/-- `DatabaseCampaignSettings` (presentation payload). -/
structure CampaignSettings where
  title : String
  description : String
  color : Option String
  image : Option String
  thumbnail : Option String
  buttons : Option (List ChatButton)
deriving DecidableEq, Repr

/-- `DatabaseCampaign`. -/
structure Campaign where
  id : String
  name : String
  created : String
  active : Bool
  budget : CampaignBudget
  logs : List CampaignLog
  members : List String
  filters : Option (List FilterCall)
  link : String
  settings : CampaignSettings
  stats : CampaignStatistics
deriving DecidableEq, Repr

/-! ## Viewer context (`DatabaseInfo`) -/

structure UserMetadata where
  country : Option String
deriving DecidableEq, Repr

structure DatabaseUser where
  id : String
  metadata : UserMetadata
deriving DecidableEq, Repr

structure GuildMetadata where
  tags : Option (List String)
deriving DecidableEq, Repr

structure DatabaseGuild where
  metadata : GuildMetadata
deriving DecidableEq, Repr

/-- The viewer context `DatabaseInfo`. The `language` field is modelled from
the spec: the `languages` filter reads the viewer's configured language through
the external settings manager (`bot.db.settings.get(db.user,
"general:language")`), code outside this repository slice. -/
structure DBInfo where
  user : DatabaseUser
  guild : Option DatabaseGuild
  language : String
deriving DecidableEq, Repr

/-! ## Filter registry (`DatabaseCampaignFilters`) -/

/-- JavaScript truthiness of a `boolean | undefined` filter result, as consumed
by `executeFilters` (`if (!result) return false`): `undefined` is falsy. -/
def jsTruthy : Option Bool → Bool
  | some b => b
  | Option.none => false

/-- The `countries` filter body. `!db.user.metadata.country` is JavaScript
falsiness on a string: both a missing country and the empty string fail the
guard and return `false`. -/
def countriesExecute (data : List String) (db : DBInfo) : Option Bool :=
  match db.user.metadata.country with
  | Option.none => some false
  | some c => if c = "" then some false else some (data.contains c)

/-- The `tags` filter body. When the guild or its tag list is absent it
returns `false`; when some guild tag is in `data` it returns `true`; otherwise
the function falls off the end and returns `undefined` (modelled `none`). -/
def tagsExecute (data : List String) (db : DBInfo) : Option Bool :=
  match db.guild with
  | Option.none => some false
  | some guild =>
    match guild.metadata.tags with
    | Option.none => some false
    | some tags => if tags.any (fun t => data.contains t) then some true else Option.none

/-- The `languages` filter body; the viewer's configured language is the
(spec-modelled) `DBInfo.language` field. -/
def languagesExecute (data : List String) (db : DBInfo) : Option Bool :=
  some (data.contains db.language)

structure CampaignFilter where
  name : String
  execute : List String → DBInfo → Option Bool

/-- The registry `DatabaseCampaignFilters`. -/
def DatabaseCampaignFilters : List CampaignFilter :=
  [ ⟨"countries", countriesExecute⟩,
    ⟨"tags", tagsExecute⟩,
    ⟨"languages", languagesExecute⟩ ]

/-! ## ClusterCampaignManager operations -/

/-- The loop body of `executeFilters`: unknown filter names are skipped
(`continue`), a falsy result (`false` or `undefined`) returns `false`. -/
def runFilterCalls (db : DBInfo) : List FilterCall → Bool
  | [] => true
  | call :: rest =>
    match DatabaseCampaignFilters.find? (fun f => f.name == call.name) with
    | Option.none => runFilterCalls db rest
    | some filter =>
      if jsTruthy (filter.execute call.data db) then runFilterCalls db rest else false

/-- `ClusterCampaignManager.executeFilters`. -/
def executeFilters (campaign : Campaign) (db : DBInfo) : Bool :=
  match campaign.filters with
  | Option.none => true
  | some calls => if calls.length = 0 then true else runFilterCalls db calls

/-- `ClusterCampaignManager.available`: `budget.total >= budget.used`. -/
def available (campaign : Campaign) : Bool :=
  JSRat.ble campaign.budget.used campaign.budget.total

/-- The eligibility predicate of `pick`:
`c.active && this.available(c) && this.executeFilters({ campaign: c, db })`. -/
def eligible (db : DBInfo) (c : Campaign) : Bool :=
  c.active && available c && executeFilters c db

/-- `sorted.reduce((previous, campaign) => previous + campaign.budget.total, 0)`. -/
def totalBudgetOf (sorted : List Campaign) : JSRat :=
  sorted.foldl (fun previous campaign => previous.add campaign.budget.total) (JSRat.ofInt 0)

/-- `Math.round((campaign.budget.total / totalBudget) * 100)` with JavaScript
division semantics: dividing by a zero-valued total budget yields `NaN` for a
zero numerator and `±Infinity` otherwise, and `Math.round` passes both
through. -/
def rawPercent (total : JSRat) (totalBudget : JSRat) : JSInt :=
  if totalBudget.isZero then
    if total.isZero then JSInt.nan
    else if 0 < total.num then JSInt.posInf else JSInt.negInf
  else JSInt.int (JSRat.round ((total.div totalBudget).mul (JSRat.ofInt 100)))

/-- The two sequential clamp statements of `pick`:
`if (percent > 20) percent = 20 - (percent - 20);`
`if (percent < 5) percent = 5 + (10 - percent);`. -/
def clampPercent (percent : JSInt) : JSInt :=
  let percent := if JSInt.lt (.int 20) percent then (JSInt.int 20).sub (percent.sub (.int 20)) else percent
  if JSInt.lt percent (.int 5) then (JSInt.int 5).add ((JSInt.int 10).sub percent) else percent

/-- The `for (const campaign of sorted)` walk of `pick`, with the cumulative
bounds `start`/`end` threaded through. Mirrors the statement order of the
source: `end` is extended with the raw rounded percent, then the two clamps
rewrite `percent`, then the winner test runs, then `start` advances by the
clamped percent. -/
def pickWalk : List Campaign → JSRat → Int → JSInt → JSInt → Option Campaign
  | [], _, _, _, _ => Option.none
  | campaign :: rest, totalBudget, random, start, stop =>
    let percent := rawPercent campaign.budget.total totalBudget
    let stop := stop.add percent
    let percent := if JSInt.lt (.int 20) percent then (JSInt.int 20).sub (percent.sub (.int 20)) else percent
    let percent := if JSInt.lt percent (.int 5) then (JSInt.int 5).add ((JSInt.int 10).sub percent) else percent
    if JSInt.lt start (.int random) && JSInt.le (.int random) stop then some campaign
    else pickWalk rest totalBudget random (start.add percent) stop

/-- `ClusterCampaignManager.pick`, with the draw
`Math.floor(Math.random() * 100) + 1` passed in as the `random` parameter. -/
def pick (campaigns : List Campaign) (db : DBInfo) (random : Int) : Option Campaign :=
  let sorted := campaigns.filter (eligible db)
  let totalBudget := totalBudgetOf sorted
  pickWalk sorted totalBudget random (.int 0) (.int 0)

/-- The walk parameterized over which percent (clamped or raw) extends `stop`
and which advances `start`; used to state how `pickWalk` orders the clamp
against the interval extension. -/
def pickWalkWith (extendClamped advanceClamped : Bool) :
    List Campaign → JSRat → Int → JSInt → JSInt → Option Campaign
  | [], _, _, _, _ => Option.none
  | campaign :: rest, totalBudget, random, start, stop =>
    let raw := rawPercent campaign.budget.total totalBudget
    let clamped := clampPercent raw
    let stop := stop.add (if extendClamped then clamped else raw)
    if JSInt.lt start (.int random) && JSInt.le (.int random) stop then some campaign
    else pickWalkWith extendClamped advanceClamped rest totalBudget random
      (start.add (if advanceClamped then clamped else raw)) stop

/-! ## Store updates -/

/-- `Partial<DatabaseCampaign>`. -/
structure CampaignChanges where
  id : Option String := Option.none
  name : Option String := Option.none
  created : Option String := Option.none
  active : Option Bool := Option.none
  budget : Option CampaignBudget := Option.none
  logs : Option (List CampaignLog) := Option.none
  members : Option (List String) := Option.none
  filters : Option (Option (List FilterCall)) := Option.none
  link : Option String := Option.none
  settings : Option CampaignSettings := Option.none
  stats : Option CampaignStatistics := Option.none

/-- Modelled from the spec: the durable store update applied by
`db.queue.update("campaigns", campaign, changes)` — code outside this
repository slice — has top-level merge semantics
(`update(id, partialChanges) -> Campaign`, "merge semantics, not replace"):
each top-level field present in the changes replaces the campaign's field. -/
def applyChanges (c : Campaign) (ch : CampaignChanges) : Campaign :=
  { id := ch.id.getD c.id
    name := ch.name.getD c.name
    created := ch.created.getD c.created
    active := ch.active.getD c.active
    budget := ch.budget.getD c.budget
    logs := ch.logs.getD c.logs
    members := ch.members.getD c.members
    filters := ch.filters.getD c.filters
    link := ch.link.getD c.link
    settings := ch.settings.getD c.settings
    stats := ch.stats.getD c.stats }

/-- `ClusterCampaignManager.clearStatistics`: one update replacing `stats` with
all four counters zeroed. -/
def clearStatistics (campaign : Campaign) : Campaign :=
  applyChanges campaign
    { stats := some { clicks := { geo := [], total := 0 }, views := { geo := [], total := 0 } } }

/-- The partial statistics update passed to `updateStatistics`
(`Partial<DatabaseCampaignStatistics["clicks"]>` with a `geo` map). -/
structure StatUpdates where
  total : Option Nat := Option.none
  geo : Option GeoMap := Option.none

/-- `ClusterCampaignManager.updateStatistics`: spreads the old counter, then
the updates, then merges the geo maps
(`geo: { ...campaign.stats?.[type]?.geo ?? {}, ...updates.geo ?? {} }`). -/
def updateStatistics (campaign : Campaign) (type : StatType) (updates : StatUpdates) : Campaign :=
  let counter := campaign.stats.get type
  let merged : StatCounter :=
    { total := updates.total.getD counter.total
      geo := geoMerge counter.geo (updates.geo.getD []) }
  applyChanges campaign { stats := some (campaign.stats.set type merged) }

/-- `ClusterCampaignManager.incrementStatistic`. The metrics emission
(`changeCampaignsMetric`) is fire-and-forget and does not touch the campaign.
`campaign.stats[type]?.geo?.[country] ? ... + 1 : 1` tests JavaScript
truthiness, so a stored count of `0` also takes the `: 1` branch. -/
def incrementStatistic (campaign : Campaign) (type : StatType) (db : DBInfo) : Campaign :=
  let counter := campaign.stats.get type
  let base : StatUpdates := { total := some (counter.total + 1), geo := some [] }
  let updates : StatUpdates :=
    match db.user.metadata.country with
    | Option.none => base
    | some country =>
      { base with geo := some [(country,
          match geoGet counter.geo country with
          | some n => if n ≠ 0 then n + 1 else 1
          | Option.none => 1)] }
  updateStatistics campaign type updates

/-- `ClusterCampaignManager.incrementUsage`: a no-op unless the budget type
matches the event type; otherwise `used + cost / 1000` is written back through
the merging update. -/
def incrementUsage (campaign : Campaign) (type : BudgetType) : Campaign :=
  if campaign.budget.type ≠ type then campaign
  else
    let updated : JSRat := campaign.budget.used.add (campaign.budget.cost.div (JSRat.ofInt 1000))
    applyChanges campaign { budget := some { campaign.budget with used := updated } }

/-- `CreateCampaignOptions = Omit<DatabaseCampaign, "stats" | "active" | "id" | "filters" | "created">`. -/
structure CreateCampaignOptions where
  name : String
  budget : CampaignBudget
  logs : List CampaignLog
  members : List String
  link : String
  settings : CampaignSettings
deriving DecidableEq, Repr

/-- `ClusterCampaignManager.create`. The effects `randomUUID()` and
`new Date().toISOString()` are passed in as the `id` and `createdAt`
parameters. The spread `{ filters: null, created, id, ...options, active:
false, stats: ... }` cannot be overridden by `options`, whose type omits those
keys. -/
def create (options : CreateCampaignOptions) (id : String) (createdAt : String) : Campaign :=
  { id := id
    name := options.name
    created := createdAt
    active := false
    budget := options.budget
    logs := options.logs
    members := options.members
    filters := Option.none
    link := options.link
    settings := options.settings
    stats := { clicks := { geo := [], total := 0 }, views := { geo := [], total := 0 } } }

/-- The campaign-state effect of the `campaign:link` button handler
(`ClusterCampaignManager.handleInteraction`, `action === "link"`): load by id
from the store, return `undefined` when absent, otherwise debit the `click`
budget and use the updated campaign for the response. -/
def handleInteractionLink (store : String → Option Campaign) (id : String) : Option Campaign :=
  match store id with
  | Option.none => Option.none
  | some campaign => some (incrementUsage campaign BudgetType.click)

/-! ## AppCampaignManager -/

/-- `Array.prototype.findIndex`: the index of the first match, `-1` when there
is none. -/
def jsFindIndex (l : List Campaign) (p : Campaign → Bool) : Int :=
  match l.findIdx? p with
  | some i => (i : Int)
  | Option.none => -1

/-- JavaScript array element assignment `arr[i] = x`, observed through the
array's elements: for `0 ≤ i < length` it replaces the element at `i`; the
assignment `arr[-1] = x` creates a non-index object property and leaves the
elements untouched. (An index `≥ length` would lengthen the array, but
`findIndex` never produces one.) -/
def jsArraySet (l : List Campaign) (i : Int) (x : Campaign) : List Campaign :=
  if 0 ≤ i ∧ i.toNat < l.length then l.set i.toNat x else l

/-- `AppCampaignManager.update`: persist the merged record through the queue,
then write it back into the in-memory list at
`findIndex(c => c.id === campaign.id)`, and return the updated record. -/
def appUpdate (campaigns : List Campaign) (campaign : Campaign) (changes : CampaignChanges) :
    List Campaign × Campaign :=
  let updated := applyChanges campaign changes
  let index := jsFindIndex campaigns (fun c => c.id == campaign.id)
  (jsArraySet campaigns index updated, updated)

/-! ## Concrete fixtures used by witnesses and counterexamples -/

def settingsW : CampaignSettings :=
  { title := "Ad", description := "Visit us", color := Option.none,
    image := Option.none, thumbnail := Option.none, buttons := Option.none }

def statsZeroW : CampaignStatistics := ⟨⟨0, []⟩, ⟨0, []⟩⟩

def campA : Campaign :=
  { id := "camp-a", name := "camp-a", created := "2023-09-01", active := true,
    budget := { total := JSRat.ofInt 50, used := JSRat.ofInt 0,
                type := BudgetType.view, cost := JSRat.ofInt 1000 },
    logs := [], members := [], filters := Option.none, link := "https://a.example",
    settings := settingsW, stats := statsZeroW }

def campB : Campaign :=
  { campA with id := "camp-b", name := "camp-b" }

def campZero : Campaign :=
  { campA with
    id := "camp-zero"
    name := "camp-zero"
    budget := { total := JSRat.ofInt 0, used := JSRat.ofInt 0,
                type := BudgetType.view, cost := JSRat.ofInt 1000 } }

def deCode : String := "DE"

def gamingTag : String := "gaming"

def musicTag : String := "music"

def dbW : DBInfo :=
  { user := { id := "user-1", metadata := { country := Option.none } },
    guild := Option.none, language := "en" }

def dbDE : DBInfo :=
  { user := { id := "user-2", metadata := { country := some deCode } },
    guild := Option.none, language := "en" }

def dbTagW : DBInfo :=
  { user := { id := "user-3", metadata := { country := Option.none } },
    guild := some { metadata := { tags := some [gamingTag] } }, language := "en" }

def tagCampW : Campaign :=
  { campA with
    id := "camp-tags"
    name := "camp-tags"
    filters := some [{ name := "tags", data := [musicTag] }] }

def clickIdW : String := "camp-click"

def clickCampW : Campaign :=
  { campA with
    id := clickIdW
    name := clickIdW
    budget := { total := JSRat.ofInt 50, used := JSRat.ofInt 0,
                type := BudgetType.click, cost := JSRat.ofInt 1000 } }

def clickStoreW : String → Option Campaign :=
  fun s => if s = clickIdW then some clickCampW else Option.none

def clickResultW : Campaign := incrementUsage clickCampW BudgetType.click

def logW : CampaignLog :=
  { action := LogAction.toggle, when := 0, who := "op-1", data := Option.none }

def draftW : CreateCampaignOptions :=
  { name := "draft-w", budget := campA.budget, logs := [logW], members := [],
    link := "https://d.example", settings := settingsW }

def campOtherW : Campaign :=
  { campA with id := "camp-other", name := "camp-other" }

/-! ## Helper lemmas -/

instance (a : JSRat) : Decidable a.wf :=
  inferInstanceAs (Decidable (a.den ≠ 0))

theorem JSRat.toRat_add (a b : JSRat) (ha : a.wf) (hb : b.wf) :
    (a.add b).toRat = a.toRat + b.toRat := by
  unfold JSRat.wf at ha hb
  have ha' : ((a.den : ℚ)) ≠ 0 := Nat.cast_ne_zero.mpr ha
  have hb' : ((b.den : ℚ)) ≠ 0 := Nat.cast_ne_zero.mpr hb
  unfold JSRat.add JSRat.toRat
  push_cast
  field_simp

theorem JSRat.toRat_div_thousand (a : JSRat) (ha : a.wf) :
    (a.div (JSRat.ofInt 1000)).toRat = a.toRat / 1000 := by
  unfold JSRat.wf at ha
  have ha' : ((a.den : ℚ)) ≠ 0 := Nat.cast_ne_zero.mpr ha
  unfold JSRat.div JSRat.ofInt JSRat.toRat
  have h1 : ((1000 : Int)).sign = 1 := rfl
  have h2 : ((1000 : Int)).natAbs = 1000 := rfl
  rw [h1, h2]
  push_cast
  field_simp

theorem JSRat.wf_div_thousand (a : JSRat) (ha : a.wf) :
    (a.div (JSRat.ofInt 1000)).wf := by
  unfold JSRat.wf at ha ⊢
  unfold JSRat.div JSRat.ofInt
  simp only []
  have h2 : ((1000 : Int)).natAbs = 1000 := rfl
  simp [h2, ha]

/-! ## Claim theorems -/

/-- C9: `clearStatistics` zeroes all four counters (`clicks.total`,
`clicks.geo`, `views.total`, `views.geo`) in one update, and every other field
of the campaign (id, name, created, active, budget, logs, members, filters,
link, settings) is unchanged; in particular no audit entry is appended. -/
theorem clearStatistics_zeroes_counters_only (c : Campaign) :
    (clearStatistics c).stats.clicks.total = 0 ∧
    (clearStatistics c).stats.clicks.geo = [] ∧
    (clearStatistics c).stats.views.total = 0 ∧
    (clearStatistics c).stats.views.geo = [] ∧
    (clearStatistics c).id = c.id ∧
    (clearStatistics c).name = c.name ∧
    (clearStatistics c).created = c.created ∧
    (clearStatistics c).active = c.active ∧
    (clearStatistics c).budget = c.budget ∧
    (clearStatistics c).logs = c.logs ∧
    (clearStatistics c).members = c.members ∧
    (clearStatistics c).filters = c.filters ∧
    (clearStatistics c).link = c.link ∧
    (clearStatistics c).settings = c.settings :=
  ⟨rfl, rfl, rfl, rfl, rfl, rfl, rfl, rfl, rfl, rfl, rfl, rfl, rfl, rfl⟩

def newIdW : String := "camp-new"

def newCreatedW : String := "2023-09-02"

/-- C4 (counterexample): `create` does not force the audit log empty — the
draft's `logs` field is copied into the created campaign, so a draft carrying a
log entry yields a campaign with a non-empty log. -/
theorem create_draft_logs_counterexample :
    (create draftW newIdW newCreatedW).logs = [logW] ∧ [logW] ≠ ([] : List CampaignLog) :=
  ⟨rfl, by decide⟩

/-- C4 (amended): for every draft, `create` returns a campaign carrying the
supplied fresh id, the supplied creation timestamp, `active = false`,
`filters = null`, zeroed statistics (both totals `0`, both geo maps empty) —
and the `logs`, `name`, `budget`, `members`, `link` and `settings` fields are
copied from the draft (the log is not forced empty). -/
theorem create_assigns_defaults (options : CreateCampaignOptions) (id createdAt : String) :
    (create options id createdAt).id = id ∧
    (create options id createdAt).created = createdAt ∧
    (create options id createdAt).active = false ∧
    (create options id createdAt).filters = Option.none ∧
    (create options id createdAt).stats.clicks.total = 0 ∧
    (create options id createdAt).stats.clicks.geo = [] ∧
    (create options id createdAt).stats.views.total = 0 ∧
    (create options id createdAt).stats.views.geo = [] ∧
    (create options id createdAt).logs = options.logs ∧
    (create options id createdAt).name = options.name ∧
    (create options id createdAt).budget = options.budget ∧
    (create options id createdAt).members = options.members ∧
    (create options id createdAt).link = options.link ∧
    (create options id createdAt).settings = options.settings :=
  ⟨rfl, rfl, rfl, rfl, rfl, rfl, rfl, rfl, rfl, rfl, rfl, rfl, rfl, rfl⟩

/-- C7: `incrementUsage` is a no-op (the campaign is returned unchanged) when
the budget type differs from the event type; when they match, the new `used`
value is exactly `used + cost / 1000` — with no clamping to `total` (the
equation holds with no hypothesis relating the new `used` to `total`) — and
the other budget fields are unchanged. -/
theorem incrementUsage_debit_spec (c : Campaign) (t : BudgetType) :
    (c.budget.type ≠ t → incrementUsage c t = c) ∧
    (c.budget.type = t → c.budget.used.wf → c.budget.cost.wf →
      (incrementUsage c t).budget.used.toRat
        = c.budget.used.toRat + c.budget.cost.toRat / 1000 ∧
      (incrementUsage c t).budget.total = c.budget.total ∧
      (incrementUsage c t).budget.cost = c.budget.cost ∧
      (incrementUsage c t).budget.type = c.budget.type) := by
  constructor
  · intro h
    simp [incrementUsage, h]
  · intro h hu hc
    have hne : ¬ c.budget.type ≠ t := by simp [h]
    simp only [incrementUsage, if_neg hne]
    refine ⟨?_, rfl, rfl, rfl⟩
    show (c.budget.used.add (c.budget.cost.div (JSRat.ofInt 1000))).toRat = _
    rw [JSRat.toRat_add _ _ hu (JSRat.wf_div_thousand _ hc),
      JSRat.toRat_div_thousand _ hc]

/-- Witness for C7 at concrete campaigns: a `click`-type debit against a
`view`-budget campaign is a no-op, and a matching `click` debit adds exactly
`cost / 1000`. -/
theorem incrementUsage_debit_spec_witness :
    incrementUsage campA BudgetType.click = campA ∧
    (incrementUsage clickCampW BudgetType.click).budget.used.toRat
      = clickCampW.budget.used.toRat + clickCampW.budget.cost.toRat / 1000 :=
  ⟨(incrementUsage_debit_spec campA BudgetType.click).1 (by decide),
   ((incrementUsage_debit_spec clickCampW BudgetType.click).2 (by decide)
     (by decide) (by decide)).1⟩

theorem statsGetSet (s : CampaignStatistics) (type : StatType) (m : StatCounter) :
    (s.set type m).get type = m := by
  cases type <;> rfl

theorem geoGet_cons_self (k : String) (v : Nat) (g : GeoMap) :
    geoGet ((k, v) :: g) k = some v := by
  simp [geoGet, List.lookup_cons]

theorem geoGet_cons_ne (k j : String) (v : Nat) (g : GeoMap) (h : j ≠ k) :
    geoGet ((k, v) :: g) j = geoGet g j := by
  simp [geoGet, List.lookup_cons, beq_eq_false_iff_ne.mpr h]

/-- The counter that `incrementStatistic` writes for the touched statistics
type: the total incremented, and the geo map merged with either nothing or the
single-country update. -/
theorem incrementStatistic_get (c : Campaign) (type : StatType) (db : DBInfo) :
    (incrementStatistic c type db).stats.get type =
      { total := (c.stats.get type).total + 1
        geo := geoMerge (c.stats.get type).geo
          (match db.user.metadata.country with
           | Option.none => []
           | some country =>
             [(country,
               match geoGet (c.stats.get type).geo country with
               | some n => if n ≠ 0 then n + 1 else 1
               | Option.none => 1)]) } := by
  cases type <;> cases hco : db.user.metadata.country <;>
    simp [incrementStatistic, updateStatistics, applyChanges, hco,
      CampaignStatistics.get, CampaignStatistics.set]

/-- C8: the statistics increment raises the touched type's total by exactly 1;
it raises `geo[country]` by exactly 1 (inserting the key at 1 when absent)
precisely when the viewer's country is non-null; every other geo key keeps its
prior count, and with no country the geo map is untouched — the geo update is
a merge into the existing map, not a replacement. -/
theorem incrementStatistic_spec (c : Campaign) (type : StatType) (db : DBInfo) :
    ((incrementStatistic c type db).stats.get type).total = (c.stats.get type).total + 1 ∧
    (∀ co, db.user.metadata.country = some co →
      geoGet ((incrementStatistic c type db).stats.get type).geo co
        = some ((geoGet (c.stats.get type).geo co).getD 0 + 1) ∧
      ∀ k, k ≠ co →
        geoGet ((incrementStatistic c type db).stats.get type).geo k
          = geoGet (c.stats.get type).geo k) ∧
    (db.user.metadata.country = Option.none →
      ((incrementStatistic c type db).stats.get type).geo = (c.stats.get type).geo) := by
  refine ⟨?_, ?_, ?_⟩
  · rw [incrementStatistic_get]
  · intro co hco
    rw [incrementStatistic_get, hco]
    constructor
    · show geoGet (geoMerge (c.stats.get type).geo _) co = _
      rw [geoMerge]
      show geoGet ((co, _) :: (c.stats.get type).geo) co = _
      rw [geoGet_cons_self]
      cases hg : geoGet (c.stats.get type).geo co with
      | none => simp
      | some n => cases n <;> simp
    · intro k hk
      show geoGet (geoMerge (c.stats.get type).geo _) k = _
      rw [geoMerge]
      show geoGet ((co, _) :: (c.stats.get type).geo) k = _
      rw [geoGet_cons_ne _ _ _ _ hk]
  · intro hco
    rw [incrementStatistic_get, hco]
    simp [geoMerge]

/-- Witness for C8: a view for a viewer from `deCode` bumps the view total to
1 and inserts the country key at 1, and a view with no viewer country leaves
the geo map untouched. -/
theorem incrementStatistic_spec_witness :
    ((incrementStatistic campA StatType.views dbDE).stats.get StatType.views).total
      = (campA.stats.get StatType.views).total + 1 ∧
    geoGet ((incrementStatistic campA StatType.views dbDE).stats.get StatType.views).geo deCode
      = some ((geoGet (campA.stats.get StatType.views).geo deCode).getD 0 + 1) ∧
    ((incrementStatistic campA StatType.views dbW).stats.get StatType.views).geo
      = (campA.stats.get StatType.views).geo :=
  ⟨(incrementStatistic_spec campA StatType.views dbDE).1,
   ((incrementStatistic_spec campA StatType.views dbDE).2.1 deCode (by decide)).1,
   (incrementStatistic_spec campA StatType.views dbW).2.2 (by decide)⟩

/-- C2 (counterexample): the `campaign:link` click-through handler, run against
an existing campaign with a `click`-type budget, debits the budget but leaves
the statistics — in particular `clicks.total` — entirely unchanged, so it does
not apply the click statistics increment the claim requires. -/
theorem clickthrough_no_statistics_counterexample :
    handleInteractionLink clickStoreW clickIdW = some clickResultW ∧
    clickResultW.stats = clickCampW.stats ∧
    clickResultW.stats.clicks.total ≠ clickCampW.stats.clicks.total + 1 ∧
    clickResultW.budget.used ≠ clickCampW.budget.used := by
  refine ⟨by decide, by decide, by decide, by decide⟩

/-- C2 (amended): for every existing campaign id the click-through handler
applies exactly the click-type budget debit and returns the updated campaign;
it performs no click statistics increment (the statistics are returned
unchanged), and a missing id yields no campaign. -/
theorem clickthrough_debit_only (store : String → Option Campaign) (id : String) :
    (store id = Option.none → handleInteractionLink store id = Option.none) ∧
    (∀ c, store id = some c →
      handleInteractionLink store id = some (incrementUsage c BudgetType.click) ∧
      (incrementUsage c BudgetType.click).stats = c.stats) := by
  constructor
  · intro h
    simp [handleInteractionLink, h]
  · intro c h
    refine ⟨by simp [handleInteractionLink, h], ?_⟩
    unfold incrementUsage
    split
    · rfl
    · rfl

/-- Witness for C2's amended claim at a concrete store and campaign. -/
theorem clickthrough_debit_only_witness :
    handleInteractionLink clickStoreW clickIdW
      = some (incrementUsage clickCampW BudgetType.click) ∧
    (incrementUsage clickCampW BudgetType.click).stats = clickCampW.stats :=
  (clickthrough_debit_only clickStoreW clickIdW).2 clickCampW (by decide)

/-- C10: when the updated campaign's id is not in the in-memory list,
`AppCampaignManager.update` computes index `-1`, the list's elements are all
unchanged and the updated record is not inserted, yet the merged (durably
updated) campaign is still returned. -/
theorem appUpdate_missing_id_frame (campaigns : List Campaign) (campaign : Campaign)
    (changes : CampaignChanges) (h : ∀ c ∈ campaigns, c.id ≠ campaign.id) :
    jsFindIndex campaigns (fun c => c.id == campaign.id) = -1 ∧
    (appUpdate campaigns campaign changes).1 = campaigns ∧
    (appUpdate campaigns campaign changes).2 = applyChanges campaign changes := by
  have hnone : campaigns.findIdx? (fun c => c.id == campaign.id) = Option.none :=
    List.findIdx?_eq_none_iff.mpr (fun c hc => beq_eq_false_iff_ne.mpr (h c hc))
  have hidx : jsFindIndex campaigns (fun c => c.id == campaign.id) = -1 := by
    simp [jsFindIndex, hnone]
  refine ⟨hidx, ?_, rfl⟩
  show jsArraySet campaigns (jsFindIndex campaigns (fun c => c.id == campaign.id)) _ = campaigns
  rw [hidx, jsArraySet, if_neg]
  intro hcon
  omega

/-- Witness for C10 at a one-element list and a campaign with a different id. -/
theorem appUpdate_missing_id_frame_witness :
    (appUpdate [campA] campOtherW {}).1 = [campA] ∧
    (appUpdate [campA] campOtherW {}).2 = applyChanges campOtherW {} :=
  ⟨(appUpdate_missing_id_frame [campA] campOtherW {} (by decide)).2.1,
   (appUpdate_missing_id_frame [campA] campOtherW {} (by decide)).2.2⟩

/-- C5: the `tags` filter evaluates to `true` exactly when the viewer's guild
exists, has a tag list, and at least one guild tag is in the supplied list;
an absent guild or absent tag list evaluates to `false` (fail closed); and
when the guild's tags share no element with the list the filter returns
`undefined` (no explicit false branch), which `executeFilters` treats as not
matching, so the overall result is `false`. -/
theorem tags_filter_fail_closed_spec (data : List String) (db : DBInfo) :
    (tagsExecute data db = some true ↔
      ∃ g tags, db.guild = some g ∧ g.metadata.tags = some tags ∧
        ∃ t ∈ tags, data.contains t = true) ∧
    (db.guild = Option.none → tagsExecute data db = some false) ∧
    (∀ g, db.guild = some g → g.metadata.tags = Option.none →
      tagsExecute data db = some false) ∧
    (∀ g tags, db.guild = some g → g.metadata.tags = some tags →
      tags.any (fun t => data.contains t) = false →
      tagsExecute data db = Option.none ∧
      ∀ c, c.filters = some [{ name := "tags", data := data }] →
        executeFilters c db = false) := by
  refine ⟨?_, ?_, ?_, ?_⟩
  · cases hg : db.guild with
    | none => simp [tagsExecute, hg]
    | some g =>
      cases ht : g.metadata.tags with
      | none => simp [tagsExecute, hg, ht]
      | some tags =>
        simp only [tagsExecute, hg, ht]
        constructor
        · intro h
          refine ⟨g, tags, rfl, ht, ?_⟩
          by_cases hany : (tags.any fun t => data.contains t) = true
          · simpa using List.any_eq_true.mp hany
          · rw [if_neg hany] at h
            cases h
        · rintro ⟨g2, tags2, hg2, ht2, t, htmem, htc⟩
          injection hg2 with hgg
          subst hgg
          rw [ht] at ht2
          injection ht2 with htt
          subst htt
          rw [if_pos (List.any_eq_true.mpr ⟨t, htmem, htc⟩)]
  · intro h
    simp [tagsExecute, h]
  · intro g hg ht
    simp [tagsExecute, hg, ht]
  · intro g tags hg ht hany
    have h1 : tagsExecute data db = Option.none := by
      simp only [tagsExecute, hg, ht]
      exact if_neg (fun hcon => by rw [hany] at hcon; cases hcon)
    refine ⟨h1, ?_⟩
    intro c hc
    have hfind : DatabaseCampaignFilters.find? (fun f => f.name == ("tags" : String))
        = some ⟨"tags", tagsExecute⟩ := rfl
    simp only [executeFilters, hc]
    simp only [runFilterCalls, hfind, h1, jsTruthy]
    simp

/-- Witness for C5: a guild tagged `gamingTag` against a campaign filtering on
`musicTag` — the filter yields `undefined` and the campaign does not match. -/
theorem tags_filter_fail_closed_spec_witness :
    tagsExecute [musicTag] dbTagW = Option.none ∧
    executeFilters tagCampW dbTagW = false := by
  have h := (tags_filter_fail_closed_spec [musicTag] dbTagW).2.2.2
    { metadata := { tags := some [gamingTag] } } [gamingTag]
    (by decide) (by decide) (by decide)
  exact ⟨h.1, h.2 tagCampW (by decide)⟩

theorem pickWalk_mem (l : List Campaign) (tb : JSRat) (r : Int) :
    ∀ (s e : JSInt) (c : Campaign), pickWalk l tb r s e = some c → c ∈ l := by
  induction l with
  | nil =>
    intro s e c h
    cases h
  | cons a rest ih =>
    intro s e c h
    simp only [pickWalk] at h
    split at h
    · cases h
      exact List.mem_cons_self a rest
    · exact List.mem_cons_of_mem a (ih _ _ _ h)

theorem runFilterCalls_eq_true (db : DBInfo) :
    ∀ (calls : List FilterCall), runFilterCalls db calls = true →
      ∀ call ∈ calls, ∀ f,
        DatabaseCampaignFilters.find? (fun g => g.name == call.name) = some f →
        jsTruthy (f.execute call.data db) = true := by
  intro calls
  induction calls with
  | nil =>
    intro _ call hmem
    cases hmem
  | cons a rest ih =>
    intro h call hmem f hf
    rw [runFilterCalls] at h
    rcases List.mem_cons.mp hmem with rfl | hmem2
    · simp only [hf] at h
      cases htr : jsTruthy (f.execute call.data db) with
      | true => rfl
      | false =>
        rw [htr] at h
        simp at h
    · have hrest : runFilterCalls db rest = true := by
        cases hfind : DatabaseCampaignFilters.find? (fun g => g.name == a.name) with
        | none =>
          simp only [hfind] at h
          exact h
        | some filt =>
          simp only [hfind] at h
          cases htr : jsTruthy (filt.execute a.data db) with
          | true =>
            rw [htr] at h
            simpa using h
          | false =>
            rw [htr] at h
            simp at h
      exact ih hrest call hmem2 f hf

/-- C6: every campaign returned by `pick` comes from the eligible set: it is
active, available (`budget.total >= budget.used`, the boundary included), all
its filters pass for the viewer — and in particular every filter call whose
name resolves to a registered filter evaluated truthy. An inactive campaign is
never returned. -/
theorem pick_returns_eligible (campaigns : List Campaign) (db : DBInfo) (random : Int)
    (c : Campaign) (h : pick campaigns db random = some c) :
    c.active = true ∧ available c = true ∧ executeFilters c db = true ∧
    (∀ calls, c.filters = some calls → ∀ call ∈ calls, ∀ f,
      DatabaseCampaignFilters.find? (fun g => g.name == call.name) = some f →
      jsTruthy (f.execute call.data db) = true) := by
  simp only [pick] at h
  have hmem : c ∈ campaigns.filter (eligible db) := pickWalk_mem _ _ _ _ _ _ h
  have helig : eligible db c = true := List.of_mem_filter hmem
  simp only [eligible, Bool.and_eq_true] at helig
  obtain ⟨⟨hact, hav⟩, hex⟩ := helig
  refine ⟨hact, hav, hex, ?_⟩
  intro calls hcalls call hcall f hf
  simp only [executeFilters, hcalls] at hex
  by_cases hlen : calls.length = 0
  · rw [List.length_eq_zero] at hlen
    subst hlen
    cases hcall
  · rw [if_neg hlen] at hex
    exact runFilterCalls_eq_true db calls hex call hcall f hf

/-- Witness for C6 at a concrete two-campaign pool and draw 30: the walk
returns the first campaign, which is active, available and filter-passing. -/
theorem pick_returns_eligible_witness :
    pick [campA, campB] dbW 30 = some campA ∧
    campA.active = true ∧ available campA = true ∧ executeFilters campA dbW = true :=
  ⟨by decide,
   (pick_returns_eligible [campA, campB] dbW 30 campA (by decide)).1,
   (pick_returns_eligible [campA, campB] dbW 30 campA (by decide)).2.1,
   (pick_returns_eligible [campA, campB] dbW 30 campA (by decide)).2.2.1⟩

theorem foldl_add_total_zero (l : List Campaign) :
    ∀ (acc : JSRat), acc.den ≠ 0 → 0 ≤ acc.num →
    (∀ c ∈ l, c.budget.total.den ≠ 0 ∧ 0 ≤ c.budget.total.num) →
    (l.foldl (fun p c => p.add c.budget.total) acc).num = 0 →
    acc.num = 0 ∧ ∀ c ∈ l, c.budget.total.num = 0 := by
  induction l with
  | nil =>
    intro acc _ _ _ hzero
    exact ⟨hzero, fun c hc => absurd hc (List.not_mem_nil c)⟩
  | cons a rest ih =>
    intro acc hden hnum hall hzero
    have ha := hall a (List.mem_cons_self a rest)
    have hden2 : (acc.add a.budget.total).den ≠ 0 := Nat.mul_ne_zero hden ha.1
    have hnum2 : 0 ≤ (acc.add a.budget.total).num := by
      unfold JSRat.add
      exact add_nonneg (mul_nonneg hnum (Int.natCast_nonneg _))
        (mul_nonneg ha.2 (Int.natCast_nonneg _))
    rw [List.foldl_cons] at hzero
    obtain ⟨hmid, hrest⟩ :=
      ih (acc.add a.budget.total) hden2 hnum2
        (fun c hc => hall c (List.mem_cons_of_mem a hc)) hzero
    have hsum : acc.num * ((a.budget.total.den : Int)) + a.budget.total.num * ((acc.den : Int)) = 0 := hmid
    have h1 : 0 ≤ acc.num * ((a.budget.total.den : Int)) :=
      mul_nonneg hnum (Int.natCast_nonneg _)
    have h2 : 0 ≤ a.budget.total.num * ((acc.den : Int)) :=
      mul_nonneg ha.2 (Int.natCast_nonneg _)
    have hboth := (add_eq_zero_iff_of_nonneg h1 h2).mp hsum
    have haden : ((a.budget.total.den : Int)) ≠ 0 := Int.natCast_ne_zero.mpr ha.1
    have hacc : acc.num = 0 := by
      rcases mul_eq_zero.mp hboth.1 with h | h
      · exact h
      · exact absurd h haden
    have hcden : ((acc.den : Int)) ≠ 0 := Int.natCast_ne_zero.mpr hden
    have hanum : a.budget.total.num = 0 := by
      rcases mul_eq_zero.mp hboth.2 with h | h
      · exact h
      · exact absurd h hcden
    refine ⟨hacc, ?_⟩
    intro c hc
    rcases List.mem_cons.mp hc with rfl | hc2
    · exact hanum
    · exact hrest c hc2

theorem JSInt.add_nan (x : JSInt) : x.add .nan = .nan := by
  cases x <;> rfl

theorem pickWalk_none_of_zero_tb (tb : JSRat) (htb : tb.isZero = true) (r : Int) :
    ∀ (l : List Campaign), (∀ c ∈ l, c.budget.total.isZero = true) →
    ∀ (s e : JSInt), pickWalk l tb r s e = Option.none := by
  intro l
  induction l with
  | nil =>
    intro _ s e
    rfl
  | cons a rest ih =>
    intro hall s e
    have hnan : rawPercent a.budget.total tb = JSInt.nan := by
      unfold rawPercent
      rw [if_pos htb, if_pos (hall a (List.mem_cons_self a rest))]
    simp only [pickWalk, hnan, JSInt.add_nan]
    have hle : JSInt.le (.int r) .nan = false := rfl
    rw [hle]
    simp only [Bool.and_false, Bool.false_eq_true, if_false]
    exact ih (fun c hc => hall c (List.mem_cons_of_mem a hc)) _ _

/-- C3: `pick` returns none without crashing in every degenerate case — an
empty eligible set; a zero total eligible budget (all eligible budget totals
are then zero under the data model's non-negativity, the shares divide zero by
zero giving `NaN`, every interval comparison is false and the walk falls
through); and a walk that exhausts the eligible list without a winner. -/
theorem pick_degenerate_returns_none (campaigns : List Campaign) (db : DBInfo) (random : Int) :
    (campaigns.filter (eligible db) = [] → pick campaigns db random = Option.none) ∧
    ((∀ c ∈ campaigns.filter (eligible db), c.budget.total.wf ∧ 0 ≤ c.budget.total.num) →
      (totalBudgetOf (campaigns.filter (eligible db))).isZero = true →
      pick campaigns db random = Option.none) ∧
    (∀ tb s e, pickWalk [] tb random s e = Option.none) := by
  refine ⟨?_, ?_, fun tb s e => rfl⟩
  · intro h
    simp only [pick]
    rw [h]
    rfl
  · intro hwf hzero
    have hnum : (totalBudgetOf (campaigns.filter (eligible db))).num = 0 := by
      simpa [JSRat.isZero] using hzero
    have hall : ∀ c ∈ campaigns.filter (eligible db), c.budget.total.isZero = true := by
      have hz := (foldl_add_total_zero (campaigns.filter (eligible db))
        (JSRat.ofInt 0) (by decide) (by decide)
        (fun c hc => (hwf c hc)) hnum).2
      intro c hc
      simp [JSRat.isZero, hz c hc]
    simp only [pick]
    exact pickWalk_none_of_zero_tb _ hzero random _ hall _ _

/-- Witness for C3: a single eligible campaign with budget total `0` (the
total eligible budget is zero), and the empty pool, both yield no campaign. -/
theorem pick_degenerate_returns_none_witness :
    pick [campZero] dbW 50 = Option.none ∧ pick [] dbW 50 = Option.none :=
  ⟨(pick_degenerate_returns_none [campZero] dbW 50).2.1 (by decide) (by decide),
   (pick_degenerate_returns_none [] dbW 50).1 (by decide)⟩

/-- C1 (counterexample): the walk of `pick` does not extend `end` by the
post-clamp percent. With two eligible campaigns of equal budget `50`
(raw share 50, post-clamp share 25) and a draw of 30, the source walk —
which extends `end` by the raw percent before clamping — picks the first
campaign, while a walk that clamps before the `end +=` line picks the second;
so the two walks disagree at this input. -/
theorem pick_clamp_order_counterexample :
    pickWalk [campA, campB] (totalBudgetOf [campA, campB]) 30 (.int 0) (.int 0) = some campA ∧
    pickWalkWith true true [campA, campB] (totalBudgetOf [campA, campB]) 30 (.int 0) (.int 0)
      = some campB ∧
    pickWalk [campA, campB] (totalBudgetOf [campA, campB]) 30 (.int 0) (.int 0)
      ≠ pickWalkWith true true [campA, campB] (totalBudgetOf [campA, campB]) 30 (.int 0) (.int 0) :=
  ⟨by decide, by decide, by decide⟩

/-- C1 (amended): in the walk of `pick` the clamp is applied *after* the
interval is extended — the cumulative bound `end` is incremented by the raw
pre-clamp percent, while `start` advances by the post-clamp percent when the
campaign does not win: the source walk coincides with the parameterized walk
that extends with the raw percent and advances with the clamped percent. -/
theorem pick_extends_raw_advances_clamped (l : List Campaign) (tb : JSRat) (r : Int) :
    ∀ (s e : JSInt), pickWalk l tb r s e = pickWalkWith false true l tb r s e := by
  induction l with
  | nil =>
    intro s e
    rfl
  | cons a rest ih =>
    intro s e
    cases hc : JSInt.lt s (.int r) && JSInt.le (.int r) (e.add (rawPercent a.budget.total tb)) with
    | true =>
      simp only [pickWalk, pickWalkWith, clampPercent]
      simp [hc]
    | false =>
      simp only [pickWalk, pickWalkWith, clampPercent]
      simp only [hc, Bool.false_eq_true, if_false]
      exact ih _ _
